import Mathlib

/-!
Verification of the investment-allocation service (`src/main.py`).

The only nontrivial logic in the program is `extract_json_from_text`
together with the `allocate_investment` request handler.  We embed both
shallowly: Python `str` values become `List Char`, Python values returned
by `json.loads` become the inductive type `PyVal`, and the handler becomes
a pure function parameterised by whether the Azure client was initialized
and by the outcome of the (external) chat-completion call.  The second
component of the handler's result counts how many completion calls were
issued, so that "fails before any network call" is expressible.
-/

set_option maxRecDepth 8000

/-- Python values as produced by `json.loads` and consumed by `main.py`.
A `pyFloat` keeps the raw numeric literal text: the program never computes
with numbers, it only passes parsed values through unchanged, so the
literal is a faithful representation for our purposes. -/
inductive PyVal : Type where
  | pyNone : PyVal
  | pyBool : Bool → PyVal
  | pyInt : Int → PyVal
  | pyFloat : String → PyVal
  | pyStr : String → PyVal
  | pyList : List PyVal → PyVal
  | pyDict : List (String × PyVal) → PyVal

/-- Lookup in a Python dict (association list with unique keys). -/
def lookupStr : List (String × PyVal) → String → Option PyVal
  | [], _ => none
  | (k, v) :: xs, key => if k = key then some v else lookupStr xs key

/-- Python dict insertion: a repeated key keeps its original position but
takes the new value (this is how `dict(pairs)` resolves duplicate keys,
last value wins). -/
def insertReplace : List (String × PyVal) → String → PyVal → List (String × PyVal)
  | [], k, v => [(k, v)]
  | (k0, v0) :: xs, k, v =>
    if k0 = k then (k0, v) :: xs else (k0, v0) :: insertReplace xs k v

/-- Python `d.get(key, default)`; in `main.py` it is only ever applied to
the dict returned by `extract_json_from_text`. -/
def pyGet (d : PyVal) (key : String) (dflt : PyVal) : PyVal :=
  match d with
  | .pyDict xs => (lookupStr xs key).getD dflt
  | _ => dflt

/-- JSON whitespace, as in Python's `json` module. -/
def isJsonWs (c : Char) : Bool := c = ' ' || c = '\t' || c = '\n' || c = '\r'

def skipWs : List Char → List Char
  | [] => []
  | c :: cs => if isJsonWs c then skipWs cs else c :: cs

def hexVal (c : Char) : Option Nat :=
  if '0' ≤ c ∧ c ≤ '9' then some (c.toNat - 48)
  else if 'a' ≤ c ∧ c ≤ 'f' then some (c.toNat - 87)
  else if 'A' ≤ c ∧ c ≤ 'F' then some (c.toNat - 70)
  else none

/-- Python json `scanstring` in strict mode, after the opening quote:
chunks of ordinary characters (unescaped control characters below 0x20 are
an error), backslash escapes, and 4-hex-digit unicode escapes.  Returns
the decoded characters and the rest of the input after the closing quote.
(Deviation: each `\uXXXX` is decoded independently through `Char.ofNat`,
so surrogate pairs are not combined into one code point as Python does;
no claim involves unicode escapes.) -/
def scanString : List Char → Option (List Char × List Char)
  | [] => none
  | '"' :: rest => some ([], rest)
  | '\\' :: 'u' :: h1 :: h2 :: h3 :: h4 :: rest =>
    match hexVal h1, hexVal h2, hexVal h3, hexVal h4 with
    | some a, some b, some c, some d =>
      let n := ((a * 16 + b) * 16 + c) * 16 + d
      (scanString rest).map (fun p => (Char.ofNat n :: p.1, p.2))
    | _, _, _, _ => none
  | '\\' :: e :: rest =>
    let esc : Option Char :=
      if e = '"' then some '"'
      else if e = '\\' then some '\\'
      else if e = '/' then some '/'
      else if e = 'b' then some (Char.ofNat 8)
      else if e = 'f' then some (Char.ofNat 12)
      else if e = 'n' then some '\n'
      else if e = 'r' then some '\r'
      else if e = 't' then some '\t'
      else none
    match esc with
    | some c => (scanString rest).map (fun p => (c :: p.1, p.2))
    | none => none
  | c :: rest =>
    if c.toNat < 32 then none
    else (scanString rest).map (fun p => (c :: p.1, p.2))

def digitsToNat (ds : List Char) : Nat :=
  ds.foldl (fun n c => n * 10 + (c.toNat - 48)) 0

/-- The JSON number token, as matched by Python json's NUMBER_RE
regular expression (sign, integer part without leading zeros, optional
fraction, optional exponent).  A pure integer literal becomes a Python
int via `int(...)`; anything with a fraction or exponent becomes a float,
kept here as its raw literal text. -/
def lexNumber (cs : List Char) : Option (PyVal × List Char) :=
  let sgn : Bool := match cs with | '-' :: _ => true | _ => false
  let cs1 := if sgn then cs.tail else cs
  match cs1 with
  | [] => none
  | c :: r =>
    if c = '0' ∨ ('1' ≤ c ∧ c ≤ '9') then
      let intDs : List Char := if c = '0' then ['0'] else c :: r.takeWhile Char.isDigit
      let rest1 : List Char := if c = '0' then r else r.dropWhile Char.isDigit
      let fracP : Option (List Char) × List Char :=
        match rest1 with
        | '.' :: d :: r2 =>
          if d.isDigit then
            (some ('.' :: d :: r2.takeWhile Char.isDigit), r2.dropWhile Char.isDigit)
          else (none, rest1)
        | _ => (none, rest1)
      let expP : Option (List Char) × List Char :=
        match fracP.2 with
        | e :: '+' :: d :: r2 =>
          if (e = 'e' ∨ e = 'E') ∧ d.isDigit then
            (some (e :: '+' :: d :: r2.takeWhile Char.isDigit), r2.dropWhile Char.isDigit)
          else (none, fracP.2)
        | e :: '-' :: d :: r2 =>
          if (e = 'e' ∨ e = 'E') ∧ d.isDigit then
            (some (e :: '-' :: d :: r2.takeWhile Char.isDigit), r2.dropWhile Char.isDigit)
          else (none, fracP.2)
        | e :: d :: r2 =>
          if (e = 'e' ∨ e = 'E') ∧ d.isDigit then
            (some (e :: d :: r2.takeWhile Char.isDigit), r2.dropWhile Char.isDigit)
          else (none, fracP.2)
        | _ => (none, fracP.2)
      match fracP.1, expP.1 with
      | none, none =>
        some (.pyInt (if sgn then -(digitsToNat intDs : Int) else (digitsToNat intDs : Int)),
              expP.2)
      | fOpt, eOpt =>
        some (.pyFloat (String.mk ((if sgn then ['-'] else []) ++ intDs ++
                (fOpt.getD []) ++ (eOpt.getD []))),
              expP.2)
    else none

/-- The mode of one step of Python json's recursive-descent scanner
(`json/decoder.py` and `json/scanner.py`): `value` scans one JSON value;
`members` scans the members of an object, positioned just after the
opening quote of the next key, with the members accumulated so far;
`elements` scans the remaining elements of a non-empty array. -/
inductive ScanMode : Type where
  | value : ScanMode
  | members : List (String × PyVal) → ScanMode
  | elements : List PyVal → ScanMode

/-- Python json's scanner.  The fuel argument only bounds recursion depth;
`json_loads` supplies more than the input length can ever use, so running
out of fuel never decides an outcome. -/
def scanJson : Nat → ScanMode → List Char → Option (PyVal × List Char)
  | 0, _, _ => none
  | Nat.succ fuel, .value, cs =>
    match skipWs cs with
    | '{' :: rest =>
      (match skipWs rest with
       | '}' :: rest2 => some (.pyDict [], rest2)
       | '"' :: rest2 => scanJson fuel (.members []) rest2
       | _ => none)
    | '[' :: rest =>
      (match skipWs rest with
       | ']' :: rest2 => some (.pyList [], rest2)
       | _ => scanJson fuel (.elements []) rest)
    | '"' :: rest => (scanString rest).map (fun p => (.pyStr (String.mk p.1), p.2))
    | 't' :: 'r' :: 'u' :: 'e' :: rest => some (.pyBool true, rest)
    | 'f' :: 'a' :: 'l' :: 's' :: 'e' :: rest => some (.pyBool false, rest)
    | 'n' :: 'u' :: 'l' :: 'l' :: rest => some (.pyNone, rest)
    | 'N' :: 'a' :: 'N' :: rest => some (.pyFloat "NaN", rest)
    | 'I' :: 'n' :: 'f' :: 'i' :: 'n' :: 'i' :: 't' :: 'y' :: rest =>
      some (.pyFloat "Infinity", rest)
    | '-' :: 'I' :: 'n' :: 'f' :: 'i' :: 'n' :: 'i' :: 't' :: 'y' :: rest =>
      some (.pyFloat "-Infinity", rest)
    | rest => lexNumber rest
  | Nat.succ fuel, .members acc, cs =>
    match scanString cs with
    | none => none
    | some (key, rest) =>
      match skipWs rest with
      | ':' :: rest2 =>
        (match scanJson fuel .value rest2 with
         | none => none
         | some (v, rest3) =>
           let acc2 := insertReplace acc (String.mk key) v
           match skipWs rest3 with
           | '}' :: rest4 => some (.pyDict acc2, rest4)
           | ',' :: rest4 =>
             (match skipWs rest4 with
              | '"' :: rest5 => scanJson fuel (.members acc2) rest5
              | _ => none)
           | _ => none)
      | _ => none
  | Nat.succ fuel, .elements acc, cs =>
    match scanJson fuel .value cs with
    | none => none
    | some (v, rest) =>
      match skipWs rest with
      | ']' :: rest2 => some (.pyList (v :: acc).reverse, rest2)
      | ',' :: rest2 => scanJson fuel (.elements (v :: acc)) rest2
      | _ => none

/-- Python `json.loads`: skip leading whitespace, scan one value, and
require that only whitespace follows ("Extra data" otherwise). -/
def json_loads (cs : List Char) : Option PyVal :=
  match scanJson (2 * cs.length + 4) .value cs with
  | some (v, rest) => if skipWs rest = [] then some v else none
  | none => none

/-- Index of the first occurrence of `c`. -/
def firstIdx (c : Char) : List Char → Option Nat
  | [] => none
  | x :: xs => if x = c then some 0 else (firstIdx c xs).map (· + 1)

/-- Index of the last occurrence of `c`. -/
def lastIdx (c : Char) : List Char → Option Nat
  | [] => none
  | x :: xs =>
    match lastIdx c xs with
    | some k => some (k + 1)
    | none => if x = c then some 0 else none

/-- The match of `re.search` with the code's pattern: an opening brace,
then greedily any characters at all, then a closing brace.  The match, if
any, runs from the leftmost opening brace to the rightmost closing brace
of the whole text, and exists exactly when that closing brace comes after
that opening brace. -/
def braceSpan (cs : List Char) : Option (List Char) :=
  match firstIdx '{' cs, lastIdx '}' cs with
  | some i, some j => if i < j then some ((cs.drop i).take (j - i + 1)) else none
  | _, _ => none

/-- The hardcoded market-trend table of `main.py`. -/
def MARKET_TRENDS : List (String × String) :=
  [("NIFTY 50",
    "Expected to increase by 10-12% in the next year due to strong economic growth and corporate earnings but riskier"),
   ("Gold",
    "Expected to increase by 8-10% in the next year due to global economic uncertainty and inflation concerns"),
   ("Bonds",
    "Expected to yield 6-7% in the next year with moderate risk"),
   ("Mutual Funds",
    "Expected to increase by 8-10% in the next year less risky due to diversification over multiple stocks by experts")]

/-- After the asset name, the code's per-asset pattern continues with a
lazy run of arbitrary characters, a run of digits, and a percent sign.
Without DOTALL the dot does not match a newline, so the gap between the
asset name and the digits may not cross a newline.  This scans left to
right for the first run of digits whose maximal extent is immediately
followed by a percent sign, giving up at a newline. -/
def findNumPct : List Char → Option Nat
  | [] => none
  | c :: rest =>
    if c.isDigit then
      match (c :: rest).dropWhile Char.isDigit with
      | '%' :: _ => some (digitsToNat ((c :: rest).takeWhile Char.isDigit))
      | _ => findNumPct rest
    else if c = '\n' then none
    else findNumPct rest

/-- Case-insensitive literal prefix test, modelling `re.IGNORECASE` on the
(all-ASCII) asset names. -/
def ciStartsWith : List Char → List Char → Bool
  | [], _ => true
  | _ :: _, [] => false
  | p :: ps, c :: cs => (p.toLower == c.toLower) && ciStartsWith ps cs

/-- `re.search` for one asset: try every start position from the left; at
a position where the asset name matches case-insensitively, look for the
percentage on the same line after it; if that fails, keep trying later
start positions (which may lie beyond a newline). -/
def searchAssetPct (asset : List Char) : List Char → Option Nat
  | [] => none
  | c :: rest =>
    if ciStartsWith asset (c :: rest) then
      match findNumPct ((c :: rest).drop asset.length) with
      | some n => some n
      | none => searchAssetPct asset rest
    else searchAssetPct asset rest

/-- The fallback loop of `extract_json_from_text`: for each catalog asset
in table order, record the matched percentage (a Python int) under the
asset's exact catalog spelling. -/
def fallbackAllocation (text : List Char) : List (String × Int) :=
  MARKET_TRENDS.filterMap (fun kv =>
    (searchAssetPct kv.1.data text).map (fun n => (kv.1, Int.ofNat n)))

def unparseableMsg : String :=
  "Unable to parse specific allocations. Please review the full response for details."

/-- The value returned by `extract_json_from_text` when direct JSON
extraction did not succeed: the per-asset matches with the raw text as
explanation, or the fixed Cash-100 result if no asset matched. -/
def fallbackResult (text : List Char) : PyVal :=
  let alloc := fallbackAllocation text
  if alloc = [] then
    .pyDict [("allocation", .pyDict [("Cash", .pyInt 100)]),
             ("explanation", .pyStr unparseableMsg)]
  else
    .pyDict [("allocation", .pyDict (alloc.map (fun kv => (kv.1, PyVal.pyInt kv.2)))),
             ("explanation", .pyStr (String.mk text))]

/-- `extract_json_from_text` of `main.py`: try the brace-delimited
substring as JSON; on any failure fall through to the regex fallback. -/
def extract_json_from_text (text : List Char) : PyVal :=
  match braceSpan text with
  | some sub =>
    (match json_loads sub with
     | some v => v
     | none => fallbackResult text)
  | none => fallbackResult text

/-- Whether the first tier of the cascade fails on `text`: either no
brace-delimited substring exists, or it is not valid JSON.  This is the
exact guard under which the code reaches its fallback section. -/
def jsonStepFails (text : List Char) : Bool :=
  match braceSpan text with
  | some sub => (json_loads sub).isNone
  | none => true

/-- The body of the endpoint's success response (`InvestmentResponse` in
`main.py`).  Both fields carry the Python values taken from the extracted
dict; web-framework response validation is out of scope per the spec. -/
structure InvestmentResponse : Type where
  allocation_percentage : PyVal
  recommendation : PyVal

/-- Outcome of one request to the endpoint: a 200 success with a response
body, or an HTTPException with a status code and detail message. -/
inductive HandlerResult : Type where
  | ok : InvestmentResponse → HandlerResult
  | httpError : Nat → String → HandlerResult

def clientNotInitializedMsg : String := "Azure OpenAI client not initialized properly"

/-- The `allocate_investment` handler.  `clientInitialized` records
whether startup managed to build the Azure client (all three environment
variables present); `completion` is the outcome of the external
chat-completion call, an exception message or the raw response text.  The
second component counts how many completion calls were issued.  Prompt
construction is omitted: it is total and its output only feeds the
external call. -/
def allocate_investment (clientInitialized : Bool)
    (completion : Except String (List Char)) : HandlerResult × Nat :=
  if clientInitialized then
    match completion with
    | .error e => (.httpError 500 e, 1)
    | .ok text =>
      let d := extract_json_from_text text
      (.ok ⟨pyGet d "allocation" (.pyDict []), pyGet d "explanation" (.pyStr "")⟩, 1)
  else
    (.httpError 500 clientNotInitializedMsg, 0)

theorem firstIdx_append_of_not_mem (c : Char) (p rest : List Char) (k : Nat)
    (hp : c ∉ p) (h : firstIdx c rest = some k) :
    firstIdx c (p ++ rest) = some (p.length + k) := by
  induction p with
  | nil => simpa using h
  | cons x xs ih =>
    have hx : x ≠ c := fun hh => hp (hh ▸ List.mem_cons_self x xs)
    have hxs : c ∉ xs := fun hh => hp (List.mem_cons_of_mem x hh)
    simp only [List.cons_append, firstIdx, if_neg hx, List.append_eq, ih hxs,
      Option.map_some', List.length_cons, Option.some.injEq]
    omega

theorem lastIdx_none_of_not_mem (c : Char) (l : List Char) (h : c ∉ l) :
    lastIdx c l = none := by
  induction l with
  | nil => rfl
  | cons x xs ih =>
    have hx : x ≠ c := fun hh => h (hh ▸ List.mem_cons_self x xs)
    have hxs : c ∉ xs := fun hh => h (List.mem_cons_of_mem x hh)
    simp [lastIdx, ih hxs, if_neg hx]

theorem lastIdx_append_right (c : Char) (xs ys : List Char) (k : Nat)
    (h : lastIdx c ys = some k) :
    lastIdx c (xs ++ ys) = some (xs.length + k) := by
  induction xs with
  | nil => simpa using h
  | cons x xs ih =>
    simp only [List.cons_append, lastIdx, List.append_eq, ih, List.length_cons,
      Option.some.injEq]
    omega

theorem lastIdx_append_none (c : Char) (xs ys : List Char)
    (h : lastIdx c ys = none) :
    lastIdx c (xs ++ ys) = lastIdx c xs := by
  induction xs with
  | nil => simpa using h
  | cons x xs ih =>
    simp only [List.cons_append, lastIdx, List.append_eq, ih]

theorem lastIdx_snoc_self (c : Char) (xs : List Char) :
    lastIdx c (xs ++ [c]) = some xs.length := by
  have h1 : lastIdx c [c] = some 0 := by simp [lastIdx]
  simpa using lastIdx_append_right c xs [c] 0 h1

/-- When a brace-delimited JSON object (as a bare character block starting
with an opening and ending with a closing brace) is surrounded by prose
with no opening brace before it and no closing brace after it, the regex
match recovers exactly that block. -/
theorem braceSpan_embedded (p mid q : List Char) (hp : '{' ∉ p) (hq : '}' ∉ q) :
    braceSpan (p ++ ('{' :: (mid ++ ['}'])) ++ q) = some ('{' :: (mid ++ ['}'])) := by
  have hfirst : firstIdx '{' (p ++ ('{' :: (mid ++ ['}'])) ++ q) = some p.length := by
    have h0 : firstIdx '{' (('{' :: (mid ++ ['}'])) ++ q) = some 0 := by
      simp [firstIdx]
    rw [List.append_assoc]
    simpa using firstIdx_append_of_not_mem '{' p (('{' :: (mid ++ ['}'])) ++ q) 0 hp h0
  have hlast : lastIdx '}' (p ++ ('{' :: (mid ++ ['}'])) ++ q) =
      some (p.length + mid.length + 1) := by
    have hq0 : lastIdx '}' q = none := lastIdx_none_of_not_mem '}' q hq
    have h1 : lastIdx '}' ((p ++ ('{' :: (mid ++ ['}']))) ++ q) =
        lastIdx '}' (p ++ ('{' :: (mid ++ ['}']))) :=
      lastIdx_append_none '}' _ q hq0
    have h2 : p ++ ('{' :: (mid ++ ['}'])) = (p ++ '{' :: mid) ++ ['}'] := by
      simp
    have h3 : lastIdx '}' ((p ++ '{' :: mid) ++ ['}']) =
        some (p.length + mid.length + 1) := by
      rw [lastIdx_snoc_self]
      simp [List.length_append]
      omega
    rw [h1, h2, h3]
  unfold braceSpan
  rw [hfirst, hlast]
  have hlt : p.length < p.length + mid.length + 1 := by omega
  show (if p.length < p.length + mid.length + 1 then
      some (((p ++ ('{' :: (mid ++ ['}'])) ++ q).drop p.length).take
        (p.length + mid.length + 1 - p.length + 1))
    else none) = some ('{' :: (mid ++ ['}']))
  rw [if_pos hlt]
  have hdrop : (p ++ ('{' :: (mid ++ ['}'])) ++ q).drop p.length =
      ('{' :: (mid ++ ['}'])) ++ q := by
    rw [List.append_assoc]
    exact List.drop_left p _
  rw [hdrop]
  have harith : p.length + mid.length + 1 - p.length + 1 = ('{' :: (mid ++ ['}'])).length := by
    simp
    omega
  rw [harith, List.take_left]

/-- Whenever the first tier of the cascade fails, `extract_json_from_text`
returns exactly the fallback-section result. -/
theorem extract_eq_fallback_of_jsonStepFails (text : List Char)
    (hfail : jsonStepFails text = true) :
    extract_json_from_text text = fallbackResult text := by
  cases hbs : braceSpan text with
  | none =>
    unfold extract_json_from_text
    rw [hbs]
  | some sub =>
    have hfail2 : (json_loads sub).isNone = true := by
      unfold jsonStepFails at hfail
      rw [hbs] at hfail
      exact hfail
    cases hjl : json_loads sub with
    | none =>
      unfold extract_json_from_text
      rw [hbs]
      show (match json_loads sub with
            | some v => v
            | none => fallbackResult text) = fallbackResult text
      rw [hjl]
    | some v =>
      rw [hjl] at hfail2
      simp at hfail2

/-- Either branch of the fallback section yields a dict with exactly the
keys `allocation` and `explanation`. -/
theorem fallbackResult_shape (text : List Char) :
    ∃ a e, fallbackResult text = .pyDict [("allocation", a), ("explanation", e)] := by
  unfold fallbackResult
  by_cases h : fallbackAllocation text = []
  · rw [if_pos h]
    exact ⟨_, _, rfl⟩
  · rw [if_neg h]
    exact ⟨_, _, rfl⟩

/-- C1 (corrected): for a well-formed JSON object with `allocation` and
`explanation` fields embedded in extraneous prose, the extractor returns
exactly those two field values unchanged as the allocation and the
explanation of the endpoint result — provided the prose before the object
contains no opening brace and the prose after it contains no closing
brace (the original claim, with arbitrary prose, is refuted by
`extract_json_roundtrip_prose_braces_cex`). -/
theorem extract_json_roundtrip_embedded (p mid q : List Char) (m : List (String × PyVal))
    (a e : PyVal) (hp : '{' ∉ p) (hq : '}' ∉ q)
    (hload : json_loads ('{' :: (mid ++ ['}'])) = some (.pyDict m))
    (ha : lookupStr m "allocation" = some a)
    (he : lookupStr m "explanation" = some e) :
    allocate_investment true (.ok (p ++ ('{' :: (mid ++ ['}'])) ++ q)) =
      (.ok ⟨a, e⟩, 1) := by
  have hspan := braceSpan_embedded p mid q hp hq
  have hext : extract_json_from_text (p ++ ('{' :: (mid ++ ['}'])) ++ q) = .pyDict m := by
    simp only [extract_json_from_text, hspan, hload]
  show (HandlerResult.ok
      ⟨pyGet (extract_json_from_text (p ++ ('{' :: (mid ++ ['}'])) ++ q)) "allocation"
         (.pyDict []),
       pyGet (extract_json_from_text (p ++ ('{' :: (mid ++ ['}'])) ++ q)) "explanation"
         (.pyStr "")⟩,
      1) = (.ok ⟨a, e⟩, 1)
  rw [hext]
  simp [pyGet, ha, he]

/-- C1 witness: the round trip at a concrete response embedded in prose
without surrounding braces. -/
theorem extract_json_roundtrip_embedded_witness :
    ('{' ∉ "Sure: ".data) ∧ ('}' ∉ " ok".data) ∧
    json_loads ('{' :: ("\"allocation\": \x7b\"Gold\": 50\x7d, \"explanation\": \"buy\"".data ++ ['}'])) =
      some (.pyDict [("allocation", .pyDict [("Gold", .pyInt 50)]),
                     ("explanation", .pyStr "buy")]) ∧
    lookupStr [("allocation", PyVal.pyDict [("Gold", PyVal.pyInt 50)]),
               ("explanation", PyVal.pyStr "buy")] "allocation" =
      some (.pyDict [("Gold", .pyInt 50)]) ∧
    lookupStr [("allocation", PyVal.pyDict [("Gold", PyVal.pyInt 50)]),
               ("explanation", PyVal.pyStr "buy")] "explanation" = some (.pyStr "buy") ∧
    allocate_investment true (.ok ("Sure: ".data ++
        ('{' :: ("\"allocation\": \x7b\"Gold\": 50\x7d, \"explanation\": \"buy\"".data ++ ['}'])) ++
        " ok".data)) =
      (.ok ⟨.pyDict [("Gold", .pyInt 50)], .pyStr "buy"⟩, 1) :=
  ⟨by decide, by decide, rfl, rfl, rfl,
   extract_json_roundtrip_embedded _ _ _ _ _ _ (by decide) (by decide) rfl rfl rfl⟩

/-- C1 counterexample: the claim as stated quantifies over arbitrary
extraneous prose.  With an extra opening brace in the prose before the
object, the greedy match grabs a larger, malformed substring, JSON parsing
fails, no regex pattern matches, and the endpoint returns the Cash-100
fallback rather than the embedded field values. -/
theorem extract_json_roundtrip_prose_braces_cex :
    ¬ (allocate_investment true
        (.ok "\x7b \x7b\"allocation\": \x7b\"Gold\": 5\x7d, \"explanation\": \"hi\"\x7d".data) =
       (.ok ⟨.pyDict [("Gold", .pyInt 5)], .pyStr "hi"⟩, 1)) := by
  intro h
  have h2 : (HandlerResult.ok ⟨.pyDict [("Cash", PyVal.pyInt 100)], .pyStr unparseableMsg⟩,
      (1 : Nat)) = (.ok ⟨.pyDict [("Gold", .pyInt 5)], .pyStr "hi"⟩, 1) := h
  simp at h2

/-- C2 (confirmed): whenever the leftmost-open-brace to rightmost-close-
brace substring exists and parses as JSON, the endpoint result is exactly
the parsed object's `allocation` field (empty dict when absent) and its
`explanation` field (empty string when absent), with no further
validation of value types or percentage ranges. -/
theorem extract_json_first_tier (text sub : List Char) (v : PyVal)
    (hspan : braceSpan text = some sub) (hload : json_loads sub = some v) :
    allocate_investment true (.ok text) =
      (.ok ⟨pyGet v "allocation" (.pyDict []), pyGet v "explanation" (.pyStr "")⟩, 1) := by
  have hext : extract_json_from_text text = v := by
    simp only [extract_json_from_text, hspan, hload]
  show (HandlerResult.ok ⟨pyGet (extract_json_from_text text) "allocation" (.pyDict []),
      pyGet (extract_json_from_text text) "explanation" (.pyStr "")⟩, 1) = _
  rw [hext]

/-- C2 witness: a response whose JSON object has neither field, so both
defaults appear in the endpoint result. -/
theorem extract_json_first_tier_witness :
    braceSpan "note \x7b\"foo\": 1\x7d tail".data = some "\x7b\"foo\": 1\x7d".data ∧
    json_loads "\x7b\"foo\": 1\x7d".data = some (.pyDict [("foo", .pyInt 1)]) ∧
    allocate_investment true (.ok "note \x7b\"foo\": 1\x7d tail".data) =
      (.ok ⟨.pyDict [], .pyStr ""⟩, 1) :=
  ⟨rfl, rfl, extract_json_first_tier "note \x7b\"foo\": 1\x7d tail".data
    "\x7b\"foo\": 1\x7d".data (.pyDict [("foo", .pyInt 1)]) rfl rfl⟩

/-- C3 (corrected): when the first tier fails, the extractor searches the
raw text case-insensitively, independently for each of the four catalog
assets, for the asset name followed by characters and then a digit run
immediately followed by a percent sign, and returns the mapping of
matched assets to their percentages with the whole raw text as the
explanation.  Correction: the gap between the asset name and the digits
may not cross a newline (the pattern's dot does not match a newline), so
"any characters" in the claim is refuted by
`extract_regex_fallback_newline_cex`. -/
theorem extract_regex_fallback (text : List Char)
    (hfail : jsonStepFails text = true)
    (hne : fallbackAllocation text ≠ []) :
    extract_json_from_text text =
      .pyDict [("allocation",
          .pyDict ((fallbackAllocation text).map (fun kv => (kv.1, PyVal.pyInt kv.2)))),
        ("explanation", .pyStr (String.mk text))] := by
  rw [extract_eq_fallback_of_jsonStepFails text hfail]
  unfold fallbackResult
  rw [if_neg hne]

/-- C3 witness: the spec's own example — invalid JSON between braces with
Gold at 8 percent and Bonds at 20 percent. -/
theorem extract_regex_fallback_witness :
    jsonStepFails "alloc \x7b Gold: 8%, Bonds: 20% \x7d".data = true ∧
    fallbackAllocation "alloc \x7b Gold: 8%, Bonds: 20% \x7d".data =
      [("Gold", 8), ("Bonds", 20)] ∧
    extract_json_from_text "alloc \x7b Gold: 8%, Bonds: 20% \x7d".data =
      .pyDict [("allocation", .pyDict [("Gold", .pyInt 8), ("Bonds", .pyInt 20)]),
               ("explanation", .pyStr "alloc \x7b Gold: 8%, Bonds: 20% \x7d")] :=
  ⟨rfl, rfl, extract_regex_fallback "alloc \x7b Gold: 8%, Bonds: 20% \x7d".data rfl (by decide)⟩

/-- C3 counterexample: with a newline between the asset name and the
percentage there is no match, so the claim's "any characters" fails: the
code returns the Cash-100 fallback, not the Gold-8 allocation the claim
demands. -/
theorem extract_regex_fallback_newline_cex :
    ¬ (extract_json_from_text "Gold\n8%".data =
       .pyDict [("allocation", .pyDict [("Gold", .pyInt 8)]),
                ("explanation", .pyStr "Gold\n8%")]) := by
  intro h
  have h2 : (PyVal.pyDict [("allocation", .pyDict [("Cash", PyVal.pyInt 100)]),
      ("explanation", .pyStr unparseableMsg)]) =
      .pyDict [("allocation", .pyDict [("Gold", .pyInt 8)]),
               ("explanation", .pyStr "Gold\n8%")] := h
  simp at h2

/-- C4 (confirmed): when neither a parseable brace-delimited JSON object
nor any per-asset percentage match exists, the extractor returns exactly
the Cash-100 allocation with the fixed unparseable-response explanation. -/
theorem extract_final_fallback (text : List Char)
    (hfail : jsonStepFails text = true)
    (hempty : fallbackAllocation text = []) :
    extract_json_from_text text =
      .pyDict [("allocation", .pyDict [("Cash", .pyInt 100)]),
               ("explanation", .pyStr unparseableMsg)] := by
  rw [extract_eq_fallback_of_jsonStepFails text hfail]
  unfold fallbackResult
  rw [if_pos hempty]

/-- C4 witness: plain prose with no braces, no assets, no percentages. -/
theorem extract_final_fallback_witness :
    jsonStepFails "hello world".data = true ∧
    fallbackAllocation "hello world".data = [] ∧
    extract_json_from_text "hello world".data =
      .pyDict [("allocation", .pyDict [("Cash", .pyInt 100)]),
               ("explanation", .pyStr unparseableMsg)] :=
  ⟨rfl, rfl, extract_final_fallback "hello world".data rfl rfl⟩

/-- C5 (confirmed): the extractor is total; in particular when the
brace-delimited substring exists but is malformed JSON, it falls through
to the fallback section and still returns an allocation-and-explanation
result. -/
theorem extract_total_fallthrough (text sub : List Char)
    (hspan : braceSpan text = some sub) (hload : json_loads sub = none) :
    extract_json_from_text text = fallbackResult text ∧
    ∃ a e, fallbackResult text = .pyDict [("allocation", a), ("explanation", e)] := by
  refine ⟨?_, fallbackResult_shape text⟩
  apply extract_eq_fallback_of_jsonStepFails
  unfold jsonStepFails
  rw [hspan]
  show (json_loads sub).isNone = true
  rw [hload]
  rfl

/-- C5 witness: malformed JSON that nonetheless starts with an opening
and ends with a closing brace. -/
theorem extract_total_fallthrough_witness :
    braceSpan "\x7boops\x7d".data = some "\x7boops\x7d".data ∧
    json_loads "\x7boops\x7d".data = none ∧
    (extract_json_from_text "\x7boops\x7d".data = fallbackResult "\x7boops\x7d".data ∧
     ∃ a e, fallbackResult "\x7boops\x7d".data =
        .pyDict [("allocation", a), ("explanation", e)]) :=
  ⟨rfl, rfl, extract_total_fallthrough "\x7boops\x7d".data "\x7boops\x7d".data rfl rfl⟩

/-- C6 (corrected): in the fallback tiers the endpoint's allocation
mapping is never empty (the final fallback substitutes Cash-100), but the
claim's "the endpoint never returns an empty allocation mapping" is
refuted by `empty_alloc_from_json_cex`: a successfully parsed JSON
response with an empty `allocation` field is passed through unchanged. -/
theorem fallback_alloc_nonempty (text : List Char)
    (hfail : jsonStepFails text = true) :
    ∃ l e, (allocate_investment true (.ok text)).1 = .ok ⟨.pyDict l, e⟩ ∧ l ≠ [] := by
  have hfb := extract_eq_fallback_of_jsonStepFails text hfail
  show ∃ l e, HandlerResult.ok
      ⟨pyGet (extract_json_from_text text) "allocation" (.pyDict []),
       pyGet (extract_json_from_text text) "explanation" (.pyStr "")⟩ =
      .ok ⟨.pyDict l, e⟩ ∧ l ≠ []
  rw [hfb]
  unfold fallbackResult
  by_cases h : fallbackAllocation text = []
  · rw [if_pos h]
    refine ⟨[("Cash", .pyInt 100)], .pyStr unparseableMsg, ?_, by simp⟩
    simp [pyGet, lookupStr]
  · rw [if_neg h]
    refine ⟨(fallbackAllocation text).map (fun kv => (kv.1, PyVal.pyInt kv.2)),
      .pyStr (String.mk text), ?_, by simpa using h⟩
    simp [pyGet, lookupStr]

/-- C6 witness: a fallback-tier response yields a nonempty allocation. -/
theorem fallback_alloc_nonempty_witness :
    jsonStepFails "hello".data = true ∧
    ∃ l e, (allocate_investment true (.ok "hello".data)).1 = .ok ⟨.pyDict l, e⟩ ∧ l ≠ [] :=
  ⟨rfl, fallback_alloc_nonempty "hello".data rfl⟩

/-- C6 counterexample: a valid JSON response with an empty `allocation`
dict makes the endpoint return an empty allocation mapping on a 200
success, refuting "the endpoint never returns an empty allocation
mapping". -/
theorem empty_alloc_from_json_cex :
    (allocate_investment true
      (.ok "\x7b\"allocation\": \x7b\x7d, \"explanation\": \"e\"\x7d".data)).1 =
    .ok ⟨.pyDict [], .pyStr "e"⟩ := rfl

/-- C7 (confirmed): when the Azure client was never configured, every
request fails with the fixed 500 configuration error and the completion
service is invoked zero times, whatever a completion call would have
returned. -/
theorem uninitialized_client_no_call (completion : Except String (List Char)) :
    allocate_investment false completion = (.httpError 500 clientNotInitializedMsg, 0) := rfl

/-- C8 (corrected): when the completion client is unavailable the handler
fails the request, but with a 500 status, not the 503-equivalent status
the claim's state machine names (see
`uninitialized_client_not_503_cex`). -/
theorem uninitialized_client_status_500 (completion : Except String (List Char)) :
    (allocate_investment false completion).1 = .httpError 500 clientNotInitializedMsg := rfl

/-- C8 counterexample: with the client unavailable the handler returns
status 500, and its result is not a 503 error for any detail message. -/
theorem uninitialized_client_not_503_cex :
    (allocate_investment false (.ok "x".data)).1 = .httpError 500 clientNotInitializedMsg ∧
    ∀ d : String, (allocate_investment false (.ok "x".data)).1 ≠ .httpError 503 d := by
  refine ⟨rfl, fun d h => ?_⟩
  have h2 : HandlerResult.httpError 500 clientNotInitializedMsg = .httpError 503 d := h
  simp at h2

/-- C9 (confirmed): an exception raised by the completion call inside the
handler's try block becomes a 500 error carrying exactly that exception's
message; it is surfaced to the caller, and the completion call is not
retried (exactly one call was made). -/
theorem upstream_error_propagates (e : String) :
    allocate_investment true (.error e) = (.httpError 500 e, 1) := rfl

/-- C10 (confirmed): every entry the regex fallback produces maps one of
the four catalog asset names, in the catalog's exact capitalization, to a
non-negative integer — even when the text matched only
case-insensitively. -/
theorem fallback_keys_catalog (text : List Char) (k : String) (v : Int)
    (h : (k, v) ∈ fallbackAllocation text) :
    k ∈ ["NIFTY 50", "Gold", "Bonds", "Mutual Funds"] ∧ 0 ≤ v := by
  unfold fallbackAllocation at h
  rw [List.mem_filterMap] at h
  obtain ⟨kv, hmem, hf⟩ := h
  cases hsearch : searchAssetPct kv.1.data text with
  | none =>
    rw [hsearch] at hf
    simp at hf
  | some n =>
    rw [hsearch] at hf
    simp only [Option.map_some', Option.some.injEq] at hf
    injection hf with hk hv
    subst hk
    subst hv
    refine ⟨?_, Int.ofNat_nonneg n⟩
    fin_cases hmem <;> simp

/-- C10 witness: a lowercase-matched asset is recorded under its catalog
capitalization with a non-negative percentage. -/
theorem fallback_keys_catalog_witness :
    (("Gold", (8 : Int)) ∈ fallbackAllocation "gOLd 8%".data) ∧
    ("Gold" ∈ ["NIFTY 50", "Gold", "Bonds", "Mutual Funds"] ∧ 0 ≤ (8 : Int)) :=
  ⟨by decide, fallback_keys_catalog "gOLd 8%".data "Gold" 8 (by decide)⟩
